import Mathlib

/-!
Verification of the authenticated-request pipeline of the
`samjtro/go-robinhoodcrypto` client library.

The Go source is embedded shallowly:

* `pkg/auth/auth.go` — credential construction and request signing
  (`NewAuthenticator`, `GetAuthHeaders`).  The Ed25519 primitive
  (`crypto/ed25519.Sign`) and the wall clock (`time.Now().Unix()`) are external
  collaborators and appear as explicit parameters (`sign`, `timestamp`).
* `pkg/crypto/errors/errors.go` — `APIError`, `ErrorDetail`, `ParseAPIError`.
  The text-level JSON grammar of `encoding/json` is an external collaborator:
  an HTTP body is carried as its raw text together with the optional JSON
  value the stdlib parser yields for it; the struct-decoding rules of
  `json.Unmarshal` for these two struct types are embedded in full.
* `pkg/client` (`request`, `do` in `client.go`) — the retry loop, attempt
  classification, and response handling, driven by an explicit sequence of
  per-attempt network outcomes and an explicit cancellation signal.
* `pkg/client/pagination.go` — the generic `Paginator` (`Next`, `Previous`,
  `GetAllPages`, `extractCursor`).
* The token bucket (`pkg/crypto/ratelimit`) delegates to the external
  `golang.org/x/time/rate` limiter, which is not part of the repository;
  its behaviour is modelled from the specification where a claim needs it.

Machine integers do not overflow on any path modelled here (HTTP status codes,
byte values, list lengths), so `Nat`/`Int` are used directly.
-/

namespace RobinhoodCrypto

/-! ### Base64 (Go `encoding/base64.StdEncoding`) -/

/-- The standard base64 alphabet used by Go's `base64.StdEncoding`. -/
def b64Alphabet : List Char :=
  "ABCDEFGHIJKLMNOPQRSTUVWXYZabcdefghijklmnopqrstuvwxyz0123456789+/".toList

/-- Character at a 6-bit index of the base64 alphabet. -/
def b64Char (i : Nat) : Char := b64Alphabet.getD i '='

def b64IndexAux (c : Char) : List Char → Nat → Option Nat
  | [], _ => none
  | d :: rest, i => if d = c then some i else b64IndexAux c rest (i + 1)

/-- 6-bit value of a base64 alphabet character, `none` for every other
character (including the padding character itself). -/
def b64Index (c : Char) : Option Nat := b64IndexAux c b64Alphabet 0

/-- `base64.StdEncoding.EncodeToString`: bytes in groups of three, the final
group padded with `=`. -/
def base64EncodeGroups : List Nat → List Char
  | [] => []
  | [a] => [b64Char (a / 4), b64Char (a % 4 * 16), '=', '=']
  | [a, b] => [b64Char (a / 4), b64Char (a % 4 * 16 + b / 16), b64Char (b % 16 * 4), '=']
  | a :: b :: c :: rest =>
      b64Char (a / 4) :: b64Char (a % 4 * 16 + b / 16) ::
        b64Char (b % 16 * 4 + c / 64) :: b64Char (c % 64) :: base64EncodeGroups rest

def base64Encode (bytes : List Nat) : String := String.mk (base64EncodeGroups bytes)

/-- `base64.StdEncoding.Decode` processes complete four-character quanta; `=`
padding may close the final quantum after two or three data characters and
nothing may follow a padded quantum. -/
def goBase64DecodeAux : List Char → Option (List Nat)
  | [] => some []
  | c0 :: c1 :: c2 :: c3 :: rest => do
      let i0 ← b64Index c0
      let i1 ← b64Index c1
      if c2 = '=' then
        if c3 = '=' ∧ rest = [] then
          some [i0 * 4 + i1 / 16]
        else none
      else do
        let i2 ← b64Index c2
        if c3 = '=' then
          if rest = [] then some [i0 * 4 + i1 / 16, i1 % 16 * 16 + i2 / 4]
          else none
        else do
          let i3 ← b64Index c3
          let tail ← goBase64DecodeAux rest
          some ((i0 * 4 + i1 / 16) :: (i1 % 16 * 16 + i2 / 4) :: (i2 % 4 * 64 + i3) :: tail)
  | _ => none

/-- `base64.StdEncoding.DecodeString`.  Go's decoder skips carriage returns and
newlines anywhere in the input before assembling quanta. -/
def goBase64Decode (s : String) : Option (List Nat) :=
  goBase64DecodeAux (s.toList.filter fun c => !(c == '\r') && !(c == '\n'))

/-! ### UTF-8 bytes of a string -/

/-- UTF-8 encoding of one code point. -/
def charUTF8 (c : Char) : List Nat :=
  let n := c.toNat
  if n < 0x80 then [n]
  else if n < 0x800 then [0xC0 + n / 64, 0x80 + n % 64]
  else if n < 0x10000 then [0xE0 + n / 4096, 0x80 + n / 64 % 64, 0x80 + n % 64]
  else [0xF0 + n / 262144, 0x80 + n / 4096 % 64, 0x80 + n / 64 % 64, 0x80 + n % 64]

/-- The UTF-8 bytes of a string: what `[]byte(message)` yields in Go. -/
def strBytes (s : String) : List Nat := (s.toList.map charUTF8).flatten

/-! ### `pkg/auth/auth.go` -/

/-- `ed25519.PrivateKeySize`: 32-byte seed plus 32-byte public key. -/
def ed25519PrivateKeySize : Nat := 64

/-- The `Authenticator` struct of `pkg/auth/auth.go`: an opaque API key and
the raw Ed25519 private-key bytes. -/
structure Authenticator where
  apiKey : String
  privateKey : List Nat
  deriving Repr, DecidableEq

/-- `auth.NewAuthenticator`: base64-decode the private key, insist on exactly
`ed25519.PrivateKeySize` bytes.  The `Except` messages mirror the Go error
strings. -/
def NewAuthenticator (apiKey base64PrivateKey : String) : Except String Authenticator :=
  match goBase64Decode base64PrivateKey with
  | none => .error "failed to decode private key"
  | some privateKeyBytes =>
      if privateKeyBytes.length = ed25519PrivateKeySize then
        .ok { apiKey := apiKey, privateKey := privateKeyBytes }
      else
        .error ("invalid private key size: expected 64, got " ++
          toString privateKeyBytes.length)

/-- Whether an `Except` value is a success. -/
def exceptIsOk {ε α : Type} : Except ε α → Bool
  | .ok _ => true
  | .error _ => false

/-- `Authenticator.GetAuthHeaders`.  `sign` stands for `ed25519.Sign`
(private-key bytes and message bytes to signature bytes) and `timestamp` for
`time.Now().Unix()`; everything else follows the Go body literally: the signed
message is the plain concatenation
`apiKey ++ timestamp ++ path ++ method ++ body`, the signature is base64
encoded, and three headers are returned. -/
def GetAuthHeaders (sign : List Nat → List Nat → List Nat) (a : Authenticator)
    (timestamp : Int) (method path body : String) : List (String × String) :=
  let message := a.apiKey ++ toString timestamp ++ path ++ method ++ body
  let signature := sign a.privateKey (strBytes message)
  let encodedSignature := base64Encode signature
  [("x-api-key", a.apiKey),
   ("x-signature", encodedSignature),
   ("x-timestamp", toString timestamp)]

/-- The canonical path built in `Client.request`: the URL path, extended with
`?` and the encoded query exactly when the encoded query is non-empty. -/
def pathWithQuery (path rawQuery : String) : String :=
  if rawQuery ≠ "" then path ++ "?" ++ rawQuery else path

/-! ### `pkg/crypto/errors/errors.go` -/

/-- The `ErrorDetail` struct: one `(attr, detail)` pair of an API error body. -/
structure ErrorDetail where
  attr : String
  detail : String
  deriving Repr, DecidableEq

/-- The `APIError` struct: error type string, detail list, and the HTTP status
code attached after decoding (`json:"-"`). -/
structure APIError where
  type : String
  errors : List ErrorDetail
  statusCode : Int
  deriving Repr, DecidableEq

/-- JSON values, the output of the text-level parser of `encoding/json`
(an external collaborator; its concrete number representation is irrelevant
to the structs decoded here). -/
inductive Json where
  | null
  | bool (b : Bool)
  | num (n : Int)
  | str (s : String)
  | arr (elems : List Json)
  | obj (fields : List (String × Json))

/-- ASCII lower-casing, for `encoding/json`'s case-insensitive matching of
object keys against struct field names.  (Go uses Unicode simple folding; for
the pure-ASCII field names `type`, `errors`, `attr`, `detail` the two agree on
all ASCII keys, and no claim depends on non-ASCII keys.) -/
def asciiFold (c : Char) : Char :=
  if 'A' ≤ c ∧ c ≤ 'Z' then Char.ofNat (c.toNat + 32) else c

def asciiEqFold (s t : String) : Bool :=
  s.toList.map asciiFold == t.toList.map asciiFold

/-- `json.Unmarshal` of one JSON object's fields into an `ErrorDetail`:
keys matched case-insensitively, last occurrence wins, unknown keys ignored,
`null` a no-op for string fields, any other non-string value a type error. -/
def decodeErrorDetailFields : List (String × Json) → ErrorDetail → Option ErrorDetail
  | [], acc => some acc
  | (k, v) :: rest, acc =>
      if asciiEqFold k "attr" then
        match v with
        | .str s => decodeErrorDetailFields rest { acc with attr := s }
        | .null => decodeErrorDetailFields rest acc
        | _ => none
      else if asciiEqFold k "detail" then
        match v with
        | .str s => decodeErrorDetailFields rest { acc with detail := s }
        | .null => decodeErrorDetailFields rest acc
        | _ => none
      else decodeErrorDetailFields rest acc

/-- `json.Unmarshal` of one JSON value into an `ErrorDetail` (a struct):
`null` leaves the zero value, an object decodes field-wise, anything else is a
type error. -/
def decodeErrorDetail : Json → Option ErrorDetail
  | .null => some { attr := "", detail := "" }
  | .obj fields => decodeErrorDetailFields fields { attr := "", detail := "" }
  | _ => none

/-- `json.Unmarshal` of a JSON array into `[]ErrorDetail`, element-wise. -/
def decodeErrorList : List Json → Option (List ErrorDetail)
  | [] => some []
  | j :: rest => do
      let d ← decodeErrorDetail j
      let ds ← decodeErrorList rest
      some (d :: ds)

/-- `json.Unmarshal` of one JSON object's fields into the `type`/`errors`
fields of `APIError`: `null` is a no-op for the string field and resets the
slice field to nil; wrong-typed values are type errors. -/
def decodeAPIErrorFields : List (String × Json) → String × List ErrorDetail →
    Option (String × List ErrorDetail)
  | [], acc => some acc
  | (k, v) :: rest, acc =>
      if asciiEqFold k "type" then
        match v with
        | .str s => decodeAPIErrorFields rest (s, acc.2)
        | .null => decodeAPIErrorFields rest acc
        | _ => none
      else if asciiEqFold k "errors" then
        match v with
        | .arr elems =>
            match decodeErrorList elems with
            | some ds => decodeAPIErrorFields rest (acc.1, ds)
            | none => none
        | .null => decodeAPIErrorFields rest (acc.1, [])
        | _ => none
      else decodeAPIErrorFields rest acc

/-- `json.Unmarshal(body, &apiErr)` at the level of the parsed JSON value:
succeeds producing the `type` string and the decoded detail list, or fails. -/
def unmarshalAPIError : Json → Option (String × List ErrorDetail)
  | .null => some ("", [])
  | .obj fields => decodeAPIErrorFields fields ("", [])
  | _ => none

/-- An HTTP response body: its raw text together with the JSON value the
stdlib parser produces for it (`none` when the text is not valid JSON). -/
structure Body where
  raw : String
  json : Option Json

/-! ### `Client.request` / `Client.do` (`pkg/client/client.go`) -/

/-- The Go error values that can escape `request` / `do` / `ParseAPIError`,
one constructor per `fmt.Errorf` site or error type. -/
inductive GoError where
  | ctxCanceled
  | rateLimiterError (cause : GoError)
  | requestFailed (msg : String)
  | rateLimited429
  | serverError (status : Nat)
  | maxRetriesExceeded (last : Option GoError)
  | api (e : APIError)
  | statusWithBody (status : Int) (bodyText : String)

/-- `errors.ParseAPIError`: unmarshal the body into `APIError`; on success
attach the status code and return the structured error, otherwise return the
generic `fmt.Errorf("status %d: %s", statusCode, string(body))` error. -/
def ParseAPIError (body : Body) (statusCode : Int) : GoError :=
  match body.json.bind unmarshalAPIError with
  | some (t, errs) => .api { type := t, errors := errs, statusCode := statusCode }
  | none => .statusWithBody statusCode body.raw

/-- `ErrorDetail` as rendered inside `APIError.Error()`. -/
def ErrorDetail.render (d : ErrorDetail) : String :=
  if d.attr ≠ "" then d.attr ++ ": " ++ d.detail else d.detail

/-- `APIError.Error()`. -/
def APIError.message (e : APIError) : String :=
  if e.errors.length = 0 then
    "API error (status " ++ toString e.statusCode ++ "): " ++ e.type
  else
    "API error (status " ++ toString e.statusCode ++ "): " ++ e.type ++ " - " ++
      String.intercalate "; " (e.errors.map ErrorDetail.render)

/-- The `Error()` string of each modelled Go error value.  (The
`maxRetriesExceeded none` case cannot be produced by `request`; the string is
Go's rendering of a wrapped nil.) -/
def GoError.message : GoError → String
  | .ctxCanceled => "context canceled"
  | .rateLimiterError cause => "rate limiter error: " ++ cause.message
  | .requestFailed msg => "request failed: " ++ msg
  | .rateLimited429 => "rate limited (429)"
  | .serverError status => "server error (" ++ toString status ++ ")"
  | .maxRetriesExceeded (some cause) => "max retries exceeded: " ++ cause.message
  | .maxRetriesExceeded none => "max retries exceeded: %!w(<nil>)"
  | .api e => e.message
  | .statusWithBody status bodyText => "status " ++ toString status ++ ": " ++ bodyText

/-- What one dispatch attempt of `httpClient.Do` produces: a transport error
or an HTTP response. -/
inductive Outcome where
  | transportError (msg : String)
  | response (status : Nat) (body : Body)

/-- `maxRetries = 3` in `client.go`: three retries beyond the first attempt. -/
def maxRetries : Nat := 3

/-- Whether `request` classifies an attempt's outcome as retryable:
a transport failure, HTTP 429, or HTTP ≥ 500. -/
def retryable : Outcome → Bool
  | .transportError _ => true
  | .response status _ => status == 429 || 500 ≤ status

/-- The `lastErr` value `request` records for a retryable outcome. -/
def transientErr : Outcome → GoError
  | .transportError msg => .requestFailed msg
  | .response status _ =>
      if status = 429 then .rateLimited429 else .serverError status

/-- The retry loop of `Client.request`.

* `cancelled k` — whether the caller's context is cancelled by the time
  attempt `k` begins (`ctx.Done()` already closed at that attempt's delay
  `select`, and at `rateLimiter.Wait`, which checks the context before
  consuming a token).
* `outcome k` — what `httpClient.Do` yields on attempt `k`.
* `remaining` — attempts left out of `maxRetries + 1`; recursion is on it.
* `readerRem` — the unread remainder of the single `bytes.Reader` built from
  the marshalled body before the loop.  `http.NewRequestWithContext` snapshots
  only the reader's *remaining* bytes, and an attempt that reaches the server
  (any HTTP response) transmits the remainder, leaving the reader at EOF; a
  transport failure consumes up to the whole remainder (modelled as all of
  it).

Returns the Go result together with the list of wire bodies of the dispatches
actually performed, in order (its length is the dispatch count). -/
def requestAux (cancelled : Nat → Bool) (outcome : Nat → Outcome) :
    Nat → Nat → String → Option GoError → Except GoError (Nat × Body) × List String
  | _, 0, _, lastErr => (.error (.maxRetriesExceeded lastErr), [])
  | attempt, r + 1, readerRem, _lastErr =>
      if 0 < attempt ∧ cancelled attempt then
        (.error .ctxCanceled, [])
      else if cancelled attempt then
        (.error (.rateLimiterError .ctxCanceled), [])
      else
        match outcome attempt with
        | .transportError msg =>
            let next := requestAux cancelled outcome (attempt + 1) r ""
              (some (.requestFailed msg))
            (next.1, readerRem :: next.2)
        | .response status body =>
            if status = 429 then
              let next := requestAux cancelled outcome (attempt + 1) r ""
                (some .rateLimited429)
              (next.1, readerRem :: next.2)
            else if 500 ≤ status then
              let next := requestAux cancelled outcome (attempt + 1) r ""
                (some (.serverError status))
              (next.1, readerRem :: next.2)
            else
              (.ok (status, body), [readerRem])

/-- `Client.request`: the retry loop entered with the serialized body string
(serialized once, before the loop) and an empty `lastErr`. -/
def request (cancelled : Nat → Bool) (outcome : Nat → Outcome) (bodyStr : String) :
    Except GoError (Nat × Body) × List String :=
  requestAux cancelled outcome 0 (maxRetries + 1) bodyStr none

/-- `Client.do`: run `request`, read the response body, and route any status
outside 200–299 through `errors.ParseAPIError`. -/
def clientDo (cancelled : Nat → Bool) (outcome : Nat → Outcome) (bodyStr : String) :
    Except GoError Body :=
  match (request cancelled outcome bodyStr).1 with
  | .error e => .error e
  | .ok (status, respBody) =>
      if status < 200 ∨ 300 ≤ status then
        .error (ParseAPIError respBody (Int.ofNat status))
      else
        .ok respBody

/-! ### `pkg/crypto/ratelimit` (token bucket)

The repository's `RateLimiter` stores its configuration and delegates
`Wait` / `Allow` / `Reserve` / `Tokens` to a `golang.org/x/time/rate.Limiter`,
which is outside the repository; the admission behaviour below is modelled
from the specification. -/

/-- Modelled from the spec: the `TokenBucketState` of §3 — capacity
(max tokens, integer ≥ 1), current token count (0 ≤ count ≤ capacity), and the
refill configuration; the missing piece is the internal state of the external
`rate.Limiter` held by `ratelimit.RateLimiter`. -/
structure TokenBucketState where
  maxCapacity : Nat
  refillAmount : Nat
  refillInterval : ℚ
  tokens : ℚ

/-- `ratelimit.NewRateLimiter`: records the configuration and creates the
bucket full (initial count = capacity, per the spec's lifecycle). -/
def NewRateLimiter (maxCapacity refillAmount : Nat) (refillInterval : ℚ) :
    TokenBucketState :=
  { maxCapacity := maxCapacity, refillAmount := refillAmount,
    refillInterval := refillInterval, tokens := maxCapacity }

/-- Modelled from the spec: `allow()` with no elapsed time since the previous
operation — atomically consumes one token if at least one is available, else
returns false without side effects. -/
def bucketAllow (st : TokenBucketState) : Bool × TokenBucketState :=
  if 1 ≤ st.tokens then (true, { st with tokens := st.tokens - 1 })
  else (false, st)

/-- Modelled from the spec: `wait(cancel_signal)` with no elapsed time since
the previous operation.  A cancelled signal yields a cancellation error
without consuming a token; otherwise a token is consumed — immediately when
one is available, else after sleeping exactly until the next token has
refilled (leaving the count at 0). -/
def bucketWait (cancelSignalFired : Bool) (st : TokenBucketState) :
    Except GoError Unit × TokenBucketState :=
  if cancelSignalFired then (.error .ctxCanceled, st)
  else if 1 ≤ st.tokens then (.ok (), { st with tokens := st.tokens - 1 })
  else (.ok (), { st with tokens := 0 })

/-- A back-to-back sequence of `allow()` calls (no elapsed time between
them): the list of returned booleans and the final bucket state. -/
def allowRun : Nat → TokenBucketState → List Bool × TokenBucketState
  | 0, st => ([], st)
  | n + 1, st =>
      let r := bucketAllow st
      let rest := allowRun n r.2
      (r.1 :: rest.1, rest.2)

/-! ### `pkg/client/pagination.go` -/

/-- The `PaginatedResponse[T]` struct: `{next, previous, results}`. -/
structure PaginatedResponse (T : Type) where
  next : String
  previous : String
  results : List T

/-- The cursor bookkeeping of `Paginator[T]` (the `client` and `fetcher`
fields are passed explicitly to the operations below). -/
structure PaginatorState where
  nextURL : String
  prevURL : String
  deriving Repr, DecidableEq

/-- Hexadecimal digit value, as in `net/url`'s `unhex`. -/
def hexDigit (c : Char) : Option Nat :=
  if '0' ≤ c ∧ c ≤ '9' then some (c.toNat - '0'.toNat)
  else if 'a' ≤ c ∧ c ≤ 'f' then some (c.toNat - 'a'.toNat + 10)
  else if 'A' ≤ c ∧ c ≤ 'F' then some (c.toNat - 'A'.toNat + 10)
  else none

/-- `url.QueryUnescape`: `+` becomes space, `%XY` decodes a byte, a malformed
escape fails.  (Decoded bytes are reassembled as code points, which agrees
with Go for ASCII escapes; no cursor URL exercised here uses others.) -/
def queryUnescapeAux : List Char → Option (List Char)
  | [] => some []
  | '%' :: a :: b :: rest => do
      let ha ← hexDigit a
      let hb ← hexDigit b
      let tail ← queryUnescapeAux rest
      some (Char.ofNat (ha * 16 + hb) :: tail)
  | '%' :: _ => none
  | '+' :: rest => do
      let tail ← queryUnescapeAux rest
      some (' ' :: tail)
  | c :: rest => do
      let tail ← queryUnescapeAux rest
      some (c :: tail)

def queryUnescape (s : String) : Option String :=
  (queryUnescapeAux s.toList).map String.mk

/-- One `key=value` segment of a query string: the part before the first `=`
and the part after it (empty when there is no `=`). -/
def segKeyVal (seg : String) : String × String :=
  match seg.splitOn "=" with
  | [] => ("", "")
  | k :: rest => (k, String.intercalate "=" rest)

/-- `url.Values.Get(key)` over a raw query, following `url.ParseQuery`:
segments split on `&`; empty segments and segments containing `;` are
skipped, as is any pair whose key or value fails to unescape; the first
surviving pair whose key matches yields its value, else the result is
empty. -/
def parseQueryFirst (key : String) : List String → String
  | [] => ""
  | seg :: rest =>
      if seg = "" ∨ seg.contains ';' then parseQueryFirst key rest
      else
        let kv := segKeyVal seg
        match queryUnescape kv.1, queryUnescape kv.2 with
        | some k, some v => if k = key then v else parseQueryFirst key rest
        | _, _ => parseQueryFirst key rest

/-- `extractCursor` of `pagination.go`: empty input yields `""`; a URL
`url.Parse` rejects (one containing an ASCII control character) yields `""`;
otherwise the `cursor` parameter is read from the query — the part of the URL
after the first `?`, with any `#`-fragment stripped first. -/
def extractCursor (urlStr : String) : String :=
  if urlStr = "" then ""
  else if urlStr.toList.any (fun c => c.toNat < 0x20 || c.toNat == 0x7f) then ""
  else
    match ((urlStr.splitOn "#").headD "").splitOn "?" with
    | [] => ""
    | [_] => ""
    | _ :: qparts => parseQueryFirst "cursor" (String.intercalate "?" qparts |>.splitOn "&")

/-- `Paginator.Next`: without a next cursor, an empty page and no error and no
fetch; otherwise fetch with the extracted cursor, and on success replace both
stored cursors from the response. -/
def Next {T : Type} (st : PaginatorState)
    (fetch : String → Except GoError (PaginatedResponse T)) :
    PaginatorState × Except GoError (List T) :=
  if st.nextURL = "" then (st, .ok [])
  else
    match fetch (extractCursor st.nextURL) with
    | .error e => (st, .error e)
    | .ok resp => ({ nextURL := resp.next, prevURL := resp.previous }, .ok resp.results)

/-- `Paginator.Previous`: symmetric to `Next`, driven by the stored previous
cursor. -/
def Previous {T : Type} (st : PaginatorState)
    (fetch : String → Except GoError (PaginatedResponse T)) :
    PaginatorState × Except GoError (List T) :=
  if st.prevURL = "" then (st, .ok [])
  else
    match fetch (extractCursor st.prevURL) with
    | .error e => (st, .error e)
    | .ok resp => ({ nextURL := resp.next, prevURL := resp.previous }, .ok resp.results)

/-- The loop of `GetAllPages` (its initial `Next` plus the `for HasNext` loop
collapse into one while-loop).  `fetch` is additionally indexed by the number
of fetch calls made so far, so distinct loop iterations are distinct calls and
the returned count is the number of invocations.  `fuel` bounds the number of
iterations unrolled; `none` means the loop had not finished within `fuel`
iterations (the Go loop has no bound of its own). -/
def getAllPagesAux {T : Type} (fetch : Nat → String → Except GoError (PaginatedResponse T)) :
    Nat → PaginatorState → Nat → List T → Option (Except GoError (List T) × Nat)
  | 0, st, calls, acc => if st.nextURL = "" then some (.ok acc, calls) else none
  | fuel + 1, st, calls, acc =>
      if st.nextURL = "" then some (.ok acc, calls)
      else
        match fetch calls (extractCursor st.nextURL) with
        | .error e => some (.error e, calls + 1)
        | .ok resp =>
            getAllPagesAux fetch fuel { nextURL := resp.next, prevURL := resp.previous }
              (calls + 1) (acc ++ resp.results)

/-- `Paginator.GetAllPages`, started with no accumulated results and zero
fetch calls. -/
def GetAllPages {T : Type} (fetch : Nat → String → Except GoError (PaginatedResponse T))
    (fuel : Nat) (st : PaginatorState) : Option (Except GoError (List T) × Nat) :=
  getAllPagesAux fetch fuel st 0 []

/-- A finite page chain as seen from a stored next-URL: the URL is empty
exactly when no pages remain, and each page's `next` field starts the chain
of the pages after it.  (`chainFrom u pages` with `pages` non-empty says `u`
is non-empty, every page but the last has a non-empty `next`, and the last
page's `next` is empty.) -/
def chainFrom {T : Type} (nextURL : String) : List (PaginatedResponse T) → Prop
  | [] => nextURL = ""
  | p :: rest => nextURL ≠ "" ∧ chainFrom p.next rest

instance chainFromDec {T : Type} : (u : String) → (ps : List (PaginatedResponse T)) →
    Decidable (chainFrom u ps)
  | u, [] => decidable_of_iff (u = "") (by simp [chainFrom])
  | u, p :: rest =>
      have : Decidable (chainFrom p.next rest) := chainFromDec p.next rest
      decidable_of_iff (u ≠ "" ∧ chainFrom p.next rest) (by simp [chainFrom])

/-! ## Theorems -/

/-- Helper: the retry loop dispatches at most `remaining` times. -/
theorem requestAux_trace_le (cancelled : Nat → Bool) (outcome : Nat → Outcome) :
    ∀ (remaining attempt : Nat) (rem : String) (le : Option GoError),
      (requestAux cancelled outcome attempt remaining rem le).2.length ≤ remaining := by
  intro remaining
  induction remaining with
  | zero => intro attempt rem le; simp [requestAux]
  | succ r ih =>
      intro attempt rem le
      by_cases h1 : 0 < attempt ∧ cancelled attempt = true
      · simp [requestAux, h1]
      · by_cases h2 : cancelled attempt = true
        · simp [requestAux, h1, h2]
          split <;> simp
        · cases houtcome : outcome attempt with
          | transportError m =>
              have hih := ih (attempt + 1) "" (some (GoError.requestFailed m))
              simp only [requestAux, h1, h2, houtcome, if_false, List.length_cons]
              simp
              omega
          | response s b =>
              by_cases h429 : s = 429
              · have hih := ih (attempt + 1) "" (some GoError.rateLimited429)
                simp [requestAux, h1, h2, houtcome, h429]
                omega
              · by_cases h500 : 500 ≤ s
                · have hih := ih (attempt + 1) "" (some (GoError.serverError s))
                  simp [requestAux, h1, h2, houtcome, h429, h500]
                  omega
                · simp [requestAux, h1, h2, houtcome, h429, h500]

/-- Helper: one retryable attempt (transport error, 429, or ≥ 500) records its
transient error, empties the body reader, and hands over to the next
attempt. -/
theorem requestAux_retry_step (cancelled : Nat → Bool) (outcome : Nat → Outcome)
    (attempt r : Nat) (rem : String) (le : Option GoError)
    (hc : cancelled attempt = false) (hr : retryable (outcome attempt) = true) :
    requestAux cancelled outcome attempt (r + 1) rem le =
      ((requestAux cancelled outcome (attempt + 1) r ""
          (some (transientErr (outcome attempt)))).1,
        rem :: (requestAux cancelled outcome (attempt + 1) r ""
          (some (transientErr (outcome attempt)))).2) := by
  have h1 : ¬ (0 < attempt ∧ cancelled attempt = true) := by simp [hc]
  cases houtcome : outcome attempt with
  | transportError m => simp [requestAux, h1, hc, houtcome, transientErr]
  | response s b =>
      have hsb : s = 429 ∨ 500 ≤ s := by
        have h := hr
        rw [houtcome] at h
        simpa [retryable] using h
      by_cases h429 : s = 429
      · simp [requestAux, h1, hc, houtcome, h429, transientErr]
      · have h500 : 500 ≤ s := hsb.resolve_left h429
        simp [requestAux, h1, hc, houtcome, h429, h500, transientErr]

/-- Helper: an attempt whose response is neither 429 nor ≥ 500 returns that
response at once, having dispatched the reader's remaining bytes. -/
theorem requestAux_success_step (cancelled : Nat → Bool) (outcome : Nat → Outcome)
    (attempt r : Nat) (rem : String) (le : Option GoError) (s : Nat) (b : Body)
    (hc : cancelled attempt = false) (ho : outcome attempt = .response s b)
    (h429 : s ≠ 429) (h500 : s < 500) :
    requestAux cancelled outcome attempt (r + 1) rem le = (.ok (s, b), [rem]) := by
  have h1 : ¬ (0 < attempt ∧ cancelled attempt = true) := by simp [hc]
  simp [requestAux, h1, hc, ho, h429, Nat.not_le.mpr h500]

/-- C1: for every HTTP method, request path (extended with `?` plus the
encoded query when the query is non-empty), and serialized body string,
`GetAuthHeaders` signs exactly the plain concatenation
`api_key + decimal timestamp + path + method + body` with the Ed25519 private
key, and returns exactly three headers: `x-api-key` equal to the API key,
`x-signature` equal to the standard base64 encoding of the signature, and
`x-timestamp` equal to the same decimal timestamp that appears in the signed
message. -/
theorem getAuthHeaders_signs_canonical_message
    (sign : List Nat → List Nat → List Nat) (a : Authenticator) (ts : Int)
    (method path rawQuery body : String) :
    let hdrs := GetAuthHeaders sign a ts method (pathWithQuery path rawQuery) body
    hdrs.length = 3 ∧
    hdrs.lookup "x-api-key" = some a.apiKey ∧
    hdrs.lookup "x-signature" = some (base64Encode (sign a.privateKey
      (strBytes (a.apiKey ++ toString ts ++ pathWithQuery path rawQuery ++ method ++ body)))) ∧
    hdrs.lookup "x-timestamp" = some (toString ts) := by
  exact ⟨rfl, rfl, rfl, rfl⟩

/-- C7: `NewAuthenticator` fails exactly when the key material is not
decodable as standard base64 or decodes to other than the 64-byte Ed25519
private-key size; in particular an empty API key paired with a well-formed
64-byte key succeeds. -/
theorem newAuthenticator_error_iff :
    (∀ apiKey b64, exceptIsOk (NewAuthenticator apiKey b64) = true ↔
        ∃ bs, goBase64Decode b64 = some bs ∧ bs.length = 64) ∧
    exceptIsOk (NewAuthenticator "" (base64Encode (List.replicate 64 0))) = true := by
  constructor
  · intro apiKey b64
    constructor
    · intro h
      cases hdec : goBase64Decode b64 with
      | none => simp [NewAuthenticator, hdec, exceptIsOk] at h
      | some bs =>
          refine ⟨bs, rfl, ?_⟩
          by_cases hlen : bs.length = ed25519PrivateKeySize
          · exact hlen
          · simp [NewAuthenticator, hdec, hlen, exceptIsOk] at h
    · rintro ⟨bs, hdec, hlen⟩
      simp [NewAuthenticator, hdec, hlen, ed25519PrivateKeySize, exceptIsOk]
  · rfl

/-- C2: every logical call dispatches at most 4 HTTP attempts; a retryable
outcome (transport error, HTTP 429, or HTTP ≥ 500) on each of the first three
attempts followed by a 200 yields a successful return after exactly 4
dispatches; retryable outcomes on all four attempts yield a "max retries
exceeded" error wrapping the last transient error after exactly 4 dispatches,
with no 5th attempt (the outcome of any later attempt is never consulted). -/
theorem request_retry_budget (f : Nat → Outcome) (bodyStr : String) :
    (∀ cancelled, (request cancelled f bodyStr).2.length ≤ 4) ∧
    (∀ b, retryable (f 0) = true → retryable (f 1) = true → retryable (f 2) = true →
      f 3 = .response 200 b →
      request (fun _ => false) f bodyStr = (.ok (200, b), [bodyStr, "", "", ""])) ∧
    (retryable (f 0) = true → retryable (f 1) = true → retryable (f 2) = true →
      retryable (f 3) = true →
      request (fun _ => false) f bodyStr =
        (.error (.maxRetriesExceeded (some (transientErr (f 3)))), [bodyStr, "", "", ""])) := by
  refine ⟨fun cancelled => requestAux_trace_le cancelled f 4 0 bodyStr none, ?_, ?_⟩
  · intro b h0 h1 h2 h3
    have e : request (fun _ => false) f bodyStr =
        requestAux (fun _ => false) f 0 (3 + 1) bodyStr none := rfl
    rw [e, requestAux_retry_step (fun _ => false) f 0 3 bodyStr none rfl h0,
      requestAux_retry_step (fun _ => false) f 1 2 "" _ rfl h1,
      requestAux_retry_step (fun _ => false) f 2 1 "" _ rfl h2,
      requestAux_success_step (fun _ => false) f 3 0 "" _ 200 b rfl h3 (by decide) (by decide)]
  · intro h0 h1 h2 h3
    have e : request (fun _ => false) f bodyStr =
        requestAux (fun _ => false) f 0 (3 + 1) bodyStr none := rfl
    rw [e, requestAux_retry_step (fun _ => false) f 0 3 bodyStr none rfl h0,
      requestAux_retry_step (fun _ => false) f 1 2 "" _ rfl h1,
      requestAux_retry_step (fun _ => false) f 2 1 "" _ rfl h2,
      requestAux_retry_step (fun _ => false) f 3 0 "" _ rfl h3]
    rfl

/-- Witness for C2 at three 500s then a 200, and at four 500s. -/
theorem request_retry_budget_witness :
    retryable (.response 500 { raw := "", json := none }) = true ∧
    request (fun _ => false)
        (fun k => if k < 3 then Outcome.response 500 { raw := "", json := none }
          else Outcome.response 200 { raw := "ok", json := none }) "b" =
      (.ok (200, { raw := "ok", json := none }), ["b", "", "", ""]) ∧
    request (fun _ => false)
        (fun _ => Outcome.response 500 { raw := "", json := none }) "b" =
      (.error (.maxRetriesExceeded (some (.serverError 500))), ["b", "", "", ""]) := by
  refine ⟨rfl, ?_, ?_⟩
  · exact (request_retry_budget _ "b").2.1 _ rfl rfl rfl rfl
  · exact (request_retry_budget _ "b").2.2 rfl rfl rfl rfl

/-- C3 (amended): for every response whose HTTP status is 4xx other than 429,
the executor performs exactly one dispatch, never retries, and returns to the
caller the error `ParseAPIError` produces from the response body — the
structured API error when the body parses in the documented error shape,
otherwise the generic status-and-body error. -/
theorem request_4xx_terminal_single_dispatch (f : Nat → Outcome) (bodyStr : String)
    (s : Nat) (b : Body) (h4 : 400 ≤ s) (h5 : s < 500) (h429 : s ≠ 429)
    (hf : f 0 = .response s b) :
    request (fun _ => false) f bodyStr = (.ok (s, b), [bodyStr]) ∧
    clientDo (fun _ => false) f bodyStr = .error (ParseAPIError b (Int.ofNat s)) := by
  have hreq : request (fun _ => false) f bodyStr = (.ok (s, b), [bodyStr]) := by
    have e : request (fun _ => false) f bodyStr =
        requestAux (fun _ => false) f 0 (3 + 1) bodyStr none := rfl
    rw [e, requestAux_success_step (fun _ => false) f 0 3 bodyStr none s b rfl hf h429 h5]
  have h2xx : s < 200 ∨ 300 ≤ s := Or.inr (le_trans (by decide) h4)
  exact ⟨hreq, by simp [clientDo, hreq, h2xx]⟩

/-- Witness for C3 (amended) at a 404 whose body parses in the error shape. -/
theorem request_4xx_terminal_witness :
    (400 ≤ 404 ∧ 404 < 500 ∧ (404 : Nat) ≠ 429) ∧
    request (fun _ => false)
        (fun _ => .response 404
          { raw := "e", json := some (.obj [("type", .str "client_error")]) }) "" =
      (.ok (404, { raw := "e", json := some (.obj [("type", .str "client_error")]) }), [""]) ∧
    clientDo (fun _ => false)
        (fun _ => .response 404
          { raw := "e", json := some (.obj [("type", .str "client_error")]) }) "" =
      .error (ParseAPIError
        { raw := "e", json := some (.obj [("type", .str "client_error")]) } 404) := by
  refine ⟨⟨by decide, by decide, by decide⟩, ?_, ?_⟩
  · exact (request_4xx_terminal_single_dispatch _ "" 404 _
      (by decide) (by decide) (by decide) rfl).1
  · exact (request_4xx_terminal_single_dispatch _ "" 404 _
      (by decide) (by decide) (by decide) rfl).2

/-- C3 (counterexample): a 404 whose body is not valid JSON reaches the
caller as the generic status-and-body error, not as a structured API error,
refuting the unqualified "structured API error decoded from the response
body". -/
theorem request_404_unparseable_counterexample :
    clientDo (fun _ => false)
        (fun _ => .response 404 { raw := "not found", json := none }) "" =
      .error (.statusWithBody 404 "not found") ∧
    ¬ ∃ e : APIError, clientDo (fun _ => false)
        (fun _ => .response 404 { raw := "not found", json := none }) "" =
      .error (.api e) := by
  have h0 : clientDo (fun _ => false)
      (fun _ => .response 404 { raw := "not found", json := none }) "" =
      .error (.statusWithBody 404 "not found") := rfl
  refine ⟨h0, ?_⟩
  rintro ⟨e, h⟩
  rw [h0] at h
  simp at h

/-- C4: the failing input of the body-reuse defect.  The body is serialized
once before the retry loop into a single `bytes.Reader`; the first dispatch
(here answered with a 500) consumes it, so the retry dispatches an empty body
instead of the same bytes — the wire bodies of the two attempts differ. -/
theorem request_retry_drops_body_bytes :
    request (fun _ => false)
        (fun k => if k = 0 then Outcome.response 500 { raw := "", json := none }
          else Outcome.response 200 { raw := "ok", json := none })
        "\x7b\"symbol\":\"BTC-USD\"\x7d" =
      (.ok (200, { raw := "ok", json := none }),
        ["\x7b\"symbol\":\"BTC-USD\"\x7d", ""]) ∧
    ("\x7b\"symbol\":\"BTC-USD\"\x7d" : String) ≠ "" := by
  exact ⟨rfl, by decide⟩

/-- C5: a cancellation signal that has already fired when the call reaches
the rate-limit admission step (attempt 0) or the retry-delay step (a later
attempt) makes the call return a cancellation error immediately with no
further HTTP dispatches; and `wait` on a cancelled signal returns the
cancellation error with the bucket state — in particular its token count —
unchanged (bucket modelled from the spec; the limiter itself is external). -/
theorem cancellation_aborts_immediately (f : Nat → Outcome) (bodyStr : String)
    (st : TokenBucketState) (b : Body) :
    (∀ c : Nat → Bool, c 0 = true →
        request c f bodyStr = (.error (.rateLimiterError .ctxCanceled), [])) ∧
    (∀ c : Nat → Bool, c 0 = false → c 1 = true → f 0 = .response 500 b →
        request c f bodyStr = (.error .ctxCanceled, [bodyStr])) ∧
    bucketWait true st = (.error .ctxCanceled, st) := by
  refine ⟨?_, ?_, rfl⟩
  · intro c hc
    have e : request c f bodyStr = requestAux c f 0 (3 + 1) bodyStr none := rfl
    rw [e]
    simp [requestAux, hc]
  · intro c hc0 hc1 hf
    have e : request c f bodyStr = requestAux c f 0 (3 + 1) bodyStr none := rfl
    have hr : retryable (f 0) = true := by rw [hf]; rfl
    rw [e, requestAux_retry_step c f 0 3 bodyStr none hc0 hr]
    simp [requestAux, hc1]

/-- Witness for C5 with a signal fired from the start, and one that fires
after the first (500-answered) attempt. -/
theorem cancellation_aborts_witness :
    ((fun _ : Nat => true) 0 = true) ∧
    request (fun _ => true)
        (fun _ => Outcome.response 200 { raw := "", json := none }) "b" =
      (.error (.rateLimiterError .ctxCanceled), []) ∧
    request (fun k => decide (0 < k))
        (fun _ => Outcome.response 500 { raw := "", json := none }) "b" =
      (.error .ctxCanceled, ["b"]) ∧
    bucketWait true (NewRateLimiter 300 100 60) =
      (.error .ctxCanceled, NewRateLimiter 300 100 60) := by
  refine ⟨rfl, ?_, ?_, ?_⟩
  · exact (cancellation_aborts_immediately
      (fun _ => Outcome.response 200 { raw := "", json := none }) "b"
      (NewRateLimiter 300 100 60) { raw := "", json := none }).1 (fun _ => true) rfl
  · exact (cancellation_aborts_immediately
      (fun _ => Outcome.response 500 { raw := "", json := none }) "b"
      (NewRateLimiter 300 100 60) { raw := "", json := none }).2.1
      (fun k => decide (0 < k)) rfl rfl rfl
  · exact (cancellation_aborts_immediately
      (fun _ => Outcome.response 200 { raw := "", json := none }) "b"
      (NewRateLimiter 300 100 60) { raw := "", json := none }).2.2

/-- C6: for every non-2xx response the executor does not retry (status not
429 and below 500), the caller receives the structured `APIError` — carrying
the HTTP status code, the type string, and the `(attr, detail)` list — when
the body unmarshals in the `{type, errors:[{attr, detail}]}` shape, and
otherwise a generic error whose message is `status <code>: <raw body>`. -/
theorem nonretryable_error_classification (f : Nat → Outcome) (bodyStr : String)
    (s : Nat) (b : Body) (hf : f 0 = .response s b) (h2xx : s < 200 ∨ 300 ≤ s)
    (h429 : s ≠ 429) (h500 : s < 500) :
    (∀ t errs, b.json.bind unmarshalAPIError = some (t, errs) →
        clientDo (fun _ => false) f bodyStr =
          .error (.api { type := t, errors := errs, statusCode := Int.ofNat s })) ∧
    (b.json.bind unmarshalAPIError = none →
        clientDo (fun _ => false) f bodyStr =
          .error (.statusWithBody (Int.ofNat s) b.raw) ∧
        GoError.message (.statusWithBody (Int.ofNat s) b.raw) =
          "status " ++ toString (Int.ofNat s) ++ ": " ++ b.raw) := by
  have hreq : request (fun _ => false) f bodyStr = (.ok (s, b), [bodyStr]) := by
    have e : request (fun _ => false) f bodyStr =
        requestAux (fun _ => false) f 0 (3 + 1) bodyStr none := rfl
    rw [e, requestAux_success_step (fun _ => false) f 0 3 bodyStr none s b rfl hf h429 h500]
  constructor
  · intro t errs hj
    simp [clientDo, hreq, h2xx, ParseAPIError, hj]
  · intro hj
    exact ⟨by simp [clientDo, hreq, h2xx, ParseAPIError, hj], rfl⟩

/-- Witness for C6 at a 400 with a body parsing in the error shape and a 400
with an unparseable body. -/
theorem nonretryable_classification_witness :
    ((400 : Nat) < 200 ∨ 300 ≤ 400) ∧
    Option.bind
        (some (Json.obj [("type", Json.str "validation_error"), ("errors",
          Json.arr [Json.obj [("attr", Json.str "symbol"), ("detail", Json.str "bad")]])]))
        unmarshalAPIError =
      some ("validation_error", [{ attr := "symbol", detail := "bad" }]) ∧
    clientDo (fun _ => false)
        (fun _ => Outcome.response 400
          (⟨"e", some (Json.obj [("type", Json.str "validation_error"), ("errors",
            Json.arr [Json.obj [("attr", Json.str "symbol"), ("detail", Json.str "bad")]])])⟩ :
            Body)) "" =
      Except.error (GoError.api ⟨"validation_error", [⟨"symbol", "bad"⟩], 400⟩) ∧
    Option.bind (none : Option Json) unmarshalAPIError = none ∧
    clientDo (fun _ => false)
        (fun _ => Outcome.response 400 (⟨"oops", none⟩ : Body)) "" =
      Except.error (GoError.statusWithBody 400 "oops") := by
  refine ⟨by decide, rfl, ?_, rfl, ?_⟩
  · exact (nonretryable_error_classification _ "" 400
      (⟨"e", some (Json.obj [("type", Json.str "validation_error"), ("errors",
        Json.arr [Json.obj [("attr", Json.str "symbol"), ("detail", Json.str "bad")]])])⟩ :
        Body) rfl
      (Or.inr (by decide)) (by decide) (by decide)).1 "validation_error"
      [{ attr := "symbol", detail := "bad" }] rfl
  · exact ((nonretryable_error_classification _ "" 400 (⟨"oops", none⟩ : Body) rfl
      (Or.inr (by decide)) (by decide) (by decide)).2 rfl).1

/-- Helper: running the `GetAllPages` loop over a finite page chain consumes
exactly the chain, concatenating results in order. -/
theorem getAllPagesAux_chain {T : Type}
    (fetch : Nat → String → Except GoError (PaginatedResponse T)) :
    ∀ (pages : List (PaginatedResponse T)) (k : Nat) (st : PaginatorState)
      (acc : List T) (fuel : Nat),
      pages.length ≤ fuel →
      chainFrom st.nextURL pages →
      (∀ i c (h : i < pages.length), fetch (k + i) c = .ok (pages.get ⟨i, h⟩)) →
      getAllPagesAux fetch fuel st k acc =
        some (.ok (acc ++ (pages.map PaginatedResponse.results).flatten),
          k + pages.length) := by
  intro pages
  induction pages with
  | nil =>
      intro k st acc fuel _ hchain _
      have hne : st.nextURL = "" := hchain
      cases fuel with
      | zero => simp [getAllPagesAux, hne]
      | succ f => simp [getAllPagesAux, hne]
  | cons p rest ih =>
      intro k st acc fuel hfuel hchain hfetch
      obtain ⟨hne, hchain'⟩ := hchain
      cases fuel with
      | zero => simp at hfuel
      | succ f =>
          have hf0 : fetch k (extractCursor st.nextURL) = .ok p := by
            have h := hfetch 0 (extractCursor st.nextURL) (by simp)
            simpa using h
          have hfetch' : ∀ i c (h : i < rest.length),
              fetch (k + 1 + i) c = .ok (rest.get ⟨i, h⟩) := by
            intro i c h
            have h2 := hfetch (i + 1) c (Nat.succ_lt_succ h)
            rw [show k + (i + 1) = k + 1 + i by omega] at h2
            exact h2
          have hrec := ih (k + 1) ⟨p.next, p.previous⟩ (acc ++ p.results) f
            (Nat.le_of_succ_le_succ hfuel) hchain' hfetch'
          simp only [getAllPagesAux, hne, hf0, if_neg]
          rw [hrec]
          simp [List.append_assoc]
          omega

/-- C8: for every paginator whose stored next-URL is non-empty and every
fetch function yielding a finite chain of `n` pages whose last page's `next`
is empty, with every fetch succeeding, `GetAllPages` terminates returning the
concatenation of all `n` pages' results in page order, after exactly `n`
fetch invocations (pages are consumed in sequence, none re-requested); the
pages' `previous` fields are unconstrained and do not affect the outcome. -/
theorem getAllPages_concatenates_pages {T : Type}
    (pages : List (PaginatedResponse T))
    (fetch : Nat → String → Except GoError (PaginatedResponse T))
    (st : PaginatorState) (fuel : Nat)
    (hne : st.nextURL ≠ "") (hchain : chainFrom st.nextURL pages)
    (hfuel : pages.length ≤ fuel)
    (hfetch : ∀ i c (h : i < pages.length), fetch i c = .ok (pages.get ⟨i, h⟩)) :
    GetAllPages fetch fuel st =
      some (.ok ((pages.map PaginatedResponse.results).flatten), pages.length) ∧
    pages ≠ [] := by
  constructor
  · have h := getAllPagesAux_chain fetch pages 0 st [] fuel hfuel hchain
      (fun i c hi => by simpa using hfetch i c hi)
    simpa [GetAllPages] using h
  · intro hnil
    subst hnil
    exact hne hchain

/-- Witness for C8: three pages of naturals, the third with an empty `next`
and all with varying `previous` values. -/
theorem getAllPages_witness :
    (("u1?cursor=a" : String) ≠ "") ∧
    chainFrom (T := Nat) "u1?cursor=a"
      [⟨"u2?cursor=b", "", [1, 2]⟩, ⟨"u3?cursor=c", "p", [3]⟩, ⟨"", "q", [4, 5]⟩] ∧
    GetAllPages
        (fun i _ => if i = 0 then .ok (⟨"u2?cursor=b", "", [1, 2]⟩ : PaginatedResponse Nat)
          else if i = 1 then .ok ⟨"u3?cursor=c", "p", [3]⟩ else .ok ⟨"", "q", [4, 5]⟩)
        3 ⟨"u1?cursor=a", ""⟩ =
      some (.ok [1, 2, 3, 4, 5], 3) := by
  refine ⟨by decide, by decide, ?_⟩
  have h := (getAllPages_concatenates_pages
      [⟨"u2?cursor=b", "", [1, 2]⟩, ⟨"u3?cursor=c", "p", [3]⟩, ⟨"", "q", [4, 5]⟩]
      (fun i _ => if i = 0 then .ok (⟨"u2?cursor=b", "", [1, 2]⟩ : PaginatedResponse Nat)
        else if i = 1 then .ok ⟨"u3?cursor=c", "p", [3]⟩ else .ok ⟨"", "q", [4, 5]⟩)
      ⟨"u1?cursor=a", ""⟩ 3 (by decide) (by decide) (by decide)
      (fun i c hi => by
        match i, hi with
        | 0, _ => rfl
        | 1, _ => rfl
        | 2, _ => rfl)).1
  exact h

/-- Helper: closed form of a back-to-back `allow()` run starting from an
integer token count `k`: the first `min n k` calls return true, the rest
false, and `min n k` tokens are consumed. -/
theorem allowRun_closed_form (C refA : Nat) (refI : ℚ) :
    ∀ (n k : Nat),
      allowRun n ⟨C, refA, refI, (k : ℚ)⟩ =
        (List.replicate (min n k) true ++ List.replicate (n - min n k) false,
          ⟨C, refA, refI, ((k - min n k : Nat) : ℚ)⟩) := by
  intro n
  induction n with
  | zero => intro k; simp [allowRun]
  | succ m ih =>
      intro k
      cases k with
      | zero =>
          have h1 : ¬ ((1 : ℚ) ≤ ((0 : Nat) : ℚ)) := by norm_num
          simp only [allowRun, bucketAllow, h1, if_false, ih 0]
          simp [List.replicate_succ]
      | succ j =>
          have h1 : (1 : ℚ) ≤ ((j + 1 : Nat) : ℚ) := by
            push_cast
            linarith [Nat.cast_nonneg (α := ℚ) j]
          have h2 : ((j + 1 : Nat) : ℚ) - 1 = ((j : Nat) : ℚ) := by
            push_cast
            ring
          simp only [allowRun, bucketAllow, h1, if_true, h2, ih j]
          simp [Nat.succ_min_succ, Nat.succ_sub_succ, List.replicate_succ]

/-- C9: a token bucket created with capacity `C ≥ 1` starts full, and with no
elapsed time between calls at most `C` consecutive `Allow()` calls return
true before one returns false (a run of `C + 1` calls is exactly `C` trues
then a false); throughout, the token count stays between 0 and the
capacity.  (Bucket modelled from the spec; the limiter itself is external.) -/
theorem allow_at_most_capacity (C refA : Nat) (refI : ℚ) (_hC : 1 ≤ C) (n : Nat) :
    (NewRateLimiter C refA refI).tokens = (C : ℚ) ∧
    (allowRun n (NewRateLimiter C refA refI)).1.count true = min n C ∧
    0 ≤ (allowRun n (NewRateLimiter C refA refI)).2.tokens ∧
    (allowRun n (NewRateLimiter C refA refI)).2.tokens ≤ (C : ℚ) ∧
    (allowRun (C + 1) (NewRateLimiter C refA refI)).1 =
      List.replicate C true ++ [false] := by
  have e : NewRateLimiter C refA refI =
      (⟨C, refA, refI, ((C : Nat) : ℚ)⟩ : TokenBucketState) := rfl
  refine ⟨rfl, ?_, ?_, ?_, ?_⟩
  · rw [e, allowRun_closed_form C refA refI n C]
    simp [List.count_replicate_self, List.count_replicate]
  · rw [e, allowRun_closed_form C refA refI n C]
    exact Nat.cast_nonneg _
  · rw [e, allowRun_closed_form C refA refI n C]
    show ((C - min n C : Nat) : ℚ) ≤ (C : ℚ)
    exact_mod_cast Nat.sub_le C (min n C)
  · rw [e, allowRun_closed_form C refA refI (C + 1) C]
    simp [Nat.min_eq_right (Nat.le_succ C), show C + 1 - C = 1 by omega]

/-- Witness for C9 at capacity 2 and a run of 3 calls. -/
theorem allow_at_most_capacity_witness :
    (1 ≤ 2) ∧
    (NewRateLimiter 2 1 1).tokens = ((2 : Nat) : ℚ) ∧
    (allowRun 3 (NewRateLimiter 2 1 1)).1.count true = min 3 2 ∧
    0 ≤ (allowRun 3 (NewRateLimiter 2 1 1)).2.tokens ∧
    (allowRun 3 (NewRateLimiter 2 1 1)).2.tokens ≤ ((2 : Nat) : ℚ) ∧
    (allowRun (2 + 1) (NewRateLimiter 2 1 1)).1 = List.replicate 2 true ++ [false] := by
  have h := allow_at_most_capacity 2 1 1 (by decide) 3
  exact ⟨by decide, h.1, h.2.1, h.2.2.1, h.2.2.2.1, h.2.2.2.2⟩

/-- C10 (implicit): whenever the fetch function returns an error, `Next` and
`Previous` propagate that error and leave both stored cursor URLs unchanged,
so a failed fetch never advances or corrupts the paginator's position and the
same page can be retried. -/
theorem fetch_error_preserves_cursors {T : Type} (st : PaginatorState)
    (fetch : String → Except GoError (PaginatedResponse T)) (e : GoError) :
    (st.nextURL ≠ "" → fetch (extractCursor st.nextURL) = .error e →
        Next st fetch = (st, .error e)) ∧
    (st.prevURL ≠ "" → fetch (extractCursor st.prevURL) = .error e →
        Previous st fetch = (st, .error e)) := by
  constructor
  · intro hne hf
    simp [Next, hne, hf]
  · intro hne hf
    simp [Previous, hne, hf]

/-- Witness for C10 with an always-failing fetch function. -/
theorem fetch_error_preserves_cursors_witness :
    (("n?cursor=a" : String) ≠ "" ∧ ("p?cursor=b" : String) ≠ "") ∧
    Next (⟨"n?cursor=a", "p?cursor=b"⟩ : PaginatorState)
        (fun _ => (.error .ctxCanceled : Except GoError (PaginatedResponse Nat))) =
      (⟨"n?cursor=a", "p?cursor=b"⟩, .error .ctxCanceled) ∧
    Previous (⟨"n?cursor=a", "p?cursor=b"⟩ : PaginatorState)
        (fun _ => (.error .ctxCanceled : Except GoError (PaginatedResponse Nat))) =
      (⟨"n?cursor=a", "p?cursor=b"⟩, .error .ctxCanceled) := by
  refine ⟨⟨by decide, by decide⟩, ?_, ?_⟩
  · exact (fetch_error_preserves_cursors _ _ _).1 (by decide) rfl
  · exact (fetch_error_preserves_cursors _ _ _).2 (by decide) rfl

end RobinhoodCrypto
